import Mathlib

/-!
Shallow embedding of the SEO article tool backend (src/app.py), covering the
delimiter-based section extractor of `save_article`, the save/export stage
(filename sanitization, markdown rendering, JSON record), and the
server-sent-events streaming relay of the generation endpoints.

Python strings are modelled as `List Char` (sequences of code points);
`str.index` is modelled as an `Option`-returning search, so the
`try/except ValueError` in `extract` becomes an `Option` match.  Wall-clock
values (`datetime.now()` formatted as a timestamp, the human-readable
generation time and the ISO timestamp) are parameters of the corresponding
functions, and file paths are modelled by their basenames inside the fixed
output directory.
-/

set_option maxRecDepth 40000

namespace SEOTool

/-- Code points of a string literal. -/
def toL (s : String) : List Char := s.data

/-- Whitespace for Python `str.strip()` (the ASCII and Latin-1 whitespace
characters; none of the wider Unicode space characters occur in any marker
or scenario of the specification). -/
def isPySpace (c : Char) : Bool :=
  [9, 10, 11, 12, 13, 28, 29, 30, 31, 32, 133].contains c.toNat

/-- Python `s.strip()`: remove leading and trailing whitespace. -/
def pyStrip (s : List Char) : List Char :=
  ((s.dropWhile isPySpace).reverse.dropWhile isPySpace).reverse

/-- Python slice `s[a:b]` (for the in-range indices produced by `extract`). -/
def listSlice (s : List Char) (a b : Nat) : List Char := (s.drop a).take (b - a)

/-- Does `m` match at the head of `s`? -/
def matchHere : List Char → List Char → Bool
  | [], _ => true
  | _ :: _, [] => false
  | a :: m, b :: s => a == b && matchHere m s

/-- Index of the first match of `m` in `s`, if any. -/
def findSub (m : List Char) : List Char → Option Nat
  | [] => if matchHere m [] then some 0 else none
  | c :: s => if matchHere m (c :: s) then some 0 else (findSub m s).map (fun n => n + 1)

/-- Python `s.index(m, lo)`, with `none` in place of raising `ValueError`. -/
def pyIndex (s m : List Char) (lo : Nat) : Option Nat :=
  if lo ≤ s.length then (findSub m (s.drop lo)).map (fun n => n + lo) else none

/-- `m` occurs in `s` at position `i`. -/
abbrev occursAt (m s : List Char) (i : Nat) : Prop := (s.drop i).take m.length = m

/-- `i` is the first occurrence of `m` in `s` at or after position `lo`. -/
def firstOccFrom (m s : List Char) (lo i : Nat) : Prop :=
  lo ≤ i ∧ occursAt m s i ∧ ∀ j, lo ≤ j → j < i → ¬ occursAt m s j

/-- The inner `extract` of `save_article` (src/app.py):
`s = raw.index(start) + len(start)`, `e = raw.index(end, s)`,
`return raw[s:e].strip()`, with `except ValueError: return ""`.
(The Python parameter `end` is a Lean keyword, hence `end_`.) -/
def extract (raw start end_ : List Char) : List Char :=
  match pyIndex raw start 0 with
  | none => []
  | some idx =>
    match pyIndex raw end_ (idx + start.length) with
    | none => []
    | some e => pyStrip (listSlice raw (idx + start.length) e)

def mKEYWORDS : List Char := toL "---KEYWORDS---"

def mTITLETAG : List Char := toL "---TITLETAG---"

def mMETADESC : List Char := toL "---METADESC---"

def mARTICLETITLE : List Char := toL "---ARTICLETITLE---"

def mARTICLECOPY : List Char := toL "---ARTICLECOPY---"

def mFAQS : List Char := toL "---FAQS---"

def mEND : List Char := toL "---END---"

/-- Python dicts with string keys and string values, in insertion order. -/
abbrev Dict := List (String × List Char)

/-- Python dict lookup: the LAST binding of `k` wins, matching dict-literal
and `**`-merge semantics. -/
def pyLookup (d : Dict) (k : String) : Option (List Char) :=
  d.foldl (fun acc kv => if kv.1 = k then some kv.2 else acc) none

/-- Python `d.get(k, dflt)`. -/
def pyGet (d : Dict) (k : String) (dflt : List Char) : List Char :=
  (pyLookup d k).getD dflt

/-- The `sections` dict literal of `save_article`. -/
def sections (raw : List Char) : Dict :=
  [("keywords", extract raw mKEYWORDS mTITLETAG),
   ("title_tag", extract raw mTITLETAG mMETADESC),
   ("meta_desc", extract raw mMETADESC mARTICLETITLE),
   ("article_title", extract raw mARTICLETITLE mARTICLECOPY),
   ("article_copy", extract raw mARTICLECOPY mFAQS),
   ("faqs", extract raw mFAQS mEND)]

def sectionKeys : List String :=
  ["keywords", "title_tag", "meta_desc", "article_title", "article_copy", "faqs"]

/-- The six (name, startMarker, endMarker) triples, in the order of the
`sections` dict literal. -/
def sectionTriples : List (String × List Char × List Char) :=
  [("keywords", mKEYWORDS, mTITLETAG),
   ("title_tag", mTITLETAG, mMETADESC),
   ("meta_desc", mMETADESC, mARTICLETITLE),
   ("article_title", mARTICLETITLE, mARTICLECOPY),
   ("article_copy", mARTICLECOPY, mFAQS),
   ("faqs", mFAQS, mEND)]

/-- Single-character `str.replace` (both arguments of each `replace` call in
`save_article` are single characters). -/
def replaceChar (a b : Char) (s : List Char) : List Char :=
  s.map (fun c => if c = a then b else c)

/-- `safe_kw` of `save_article`:
`context.get("primary_keyword", "article").replace(" ", "_").replace("/", "-")[:30]`. -/
def safe_kw (context : Dict) : List Char :=
  (replaceChar '/' '-'
    (replaceChar ' ' '_' (pyGet context "primary_keyword" (toL "article")))).take 30

/-- `base = f"{safe_kw}_{timestamp}"`; the `strftime("%Y%m%d_%H%M%S")`
timestamp string is a parameter. -/
def base (context : Dict) (timestamp : List Char) : List Char :=
  safe_kw context ++ toL "_" ++ timestamp

/-- Basename of the markdown file inside the output directory. -/
def mdFileName (context : Dict) (timestamp : List Char) : List Char :=
  base context timestamp ++ toL ".md"

/-- Basename of the JSON file inside the output directory. -/
def jsonFileName (context : Dict) (timestamp : List Char) : List Char :=
  base context timestamp ++ toL ".json"

/-- The markdown f-string template of `save_article`, as a function of its
interpolated values (`gen` stands for the formatted generation time). -/
def mdText (pk gen tt mdsc kw ac fq notes : List Char) : List Char :=
  toL "# SEO ARTICLE OUTPUT\n\n**Primary Keyword:** " ++ pk ++
    toL "\n**Generated:** " ++ gen ++
    toL "\n\n---\n\n## SEO META DATA\n\n**Title Tag:** " ++ tt ++
    toL "\n\n**Meta Description:** " ++ mdsc ++
    toL "\n\n**Keywords Used:** " ++ kw ++
    toL "\n\n---\n\n## ARTICLE\n\n" ++ ac ++
    toL "\n\n---\n\n## FREQUENTLY ASKED QUESTIONS\n\n" ++ fq ++
    toL "\n\n---\n\n## KEYWORD RESEARCH NOTES\n\n" ++ notes ++
    toL "\n\n---\n*Generated by DIAL Agents SEO Article Tool*\n"

/-- Rendering of the markdown document: the `sections[...]` indexing in the
f-string raises `KeyError` on a missing key (modelled by `none`), while
`context.get` supplies defaults and cannot fail. -/
def buildMd (context : Dict) (secs : Dict) (gen : List Char) : Option (List Char) :=
  match pyLookup secs "title_tag", pyLookup secs "meta_desc", pyLookup secs "keywords",
      pyLookup secs "article_copy", pyLookup secs "faqs" with
  | some tt, some mdsc, some kw, some ac, some fq =>
    some (mdText (pyGet context "primary_keyword" []) gen tt mdsc kw ac fq
      (pyGet context "keywords_output" (toL "N/A")))
  | _, _, _, _, _ => none

/-- `json_data = {"generated_at": datetime.now().isoformat(), **context, **sections}`. -/
def json_data (context : Dict) (secs : Dict) (generated_at : List Char) : Dict :=
  ("generated_at", generated_at) :: (context ++ secs)

/-- The documented GenerationContext keys, plus `keywords_output`, which the
save request's context may carry. -/
def documentedContextKeys : List String :=
  ["primary_keyword", "industry", "target_audience", "tone", "brand_name", "user_notes",
   "keywords_output"]

def hexDigitChar (n : Nat) : Char :=
  if n < 10 then Char.ofNat (48 + n) else Char.ofNat (87 + n)

def hex4 (n : Nat) : List Char :=
  [hexDigitChar (n / 4096 % 16), hexDigitChar (n / 256 % 16), hexDigitChar (n / 16 % 16),
   hexDigitChar (n % 16)]

/-- `\uXXXX` escape (with surrogate pairs above the BMP), as produced by
`json.dumps` with its default `ensure_ascii=True`. -/
def uEscape (n : Nat) : List Char :=
  if n < 65536 then '\\' :: 'u' :: hex4 n
  else ('\\' :: 'u' :: hex4 (55296 + (n - 65536) / 1024)) ++
    ('\\' :: 'u' :: hex4 (56320 + (n - 65536) % 1024))

/-- Escaping of one character inside a `json.dumps` string literal. -/
def jsonEscapeChar (c : Char) : List Char :=
  if c = '"' then ['\\', '"']
  else if c = '\\' then ['\\', '\\']
  else if c = '\n' then ['\\', 'n']
  else if c = '\r' then ['\\', 'r']
  else if c = '\t' then ['\\', 't']
  else if c.toNat = 8 then ['\\', 'b']
  else if c.toNat = 12 then ['\\', 'f']
  else if c.toNat < 32 ∨ 126 < c.toNat then uEscape c.toNat
  else [c]

/-- `json.dumps` of a Python string. -/
def pyJsonString (s : List Char) : List Char :=
  '"' :: (s.map jsonEscapeChar).flatten ++ ['"']

/-- `json.dumps({'text': t})` (default separators). -/
def jsonDumpsTextObj (t : List Char) : List Char :=
  toL "\x7b\"text\": " ++ pyJsonString t ++ toL "\x7d"

/-- One framed SSE fragment: `f"data: {json.dumps({'text': text})}\n\n"`. -/
def sseFrame (t : List Char) : List Char :=
  toL "data: " ++ jsonDumpsTextObj t ++ toL "\n\n"

/-- The terminal sentinel `"data: [DONE]\n\n"`. -/
def doneEvent : List Char := toL "data: [DONE]\n\n"

/-- The `generate()` streaming relay of the generation endpoints: one framed
yield per upstream text fragment, in arrival order, then the sentinel. -/
def generateStream : List (List Char) → List (List Char)
  | [] => [doneEvent]
  | t :: rest => sseFrame t :: generateStream rest

/-- Greedy in-order search for a list of markers: each marker is looked up
at or after the end of the previous one. -/
def markersInOrderAux (raw : List Char) : Nat → List (List Char) → Bool
  | _, [] => true
  | lo, m :: rest =>
    match pyIndex raw m lo with
    | none => false
    | some i => markersInOrderAux raw (i + m.length) rest

/-- The blob contains all seven delimiter markers, in order. -/
def markersInOrder (raw : List Char) : Bool :=
  markersInOrderAux raw 0
    [mKEYWORDS, mTITLETAG, mMETADESC, mARTICLETITLE, mARTICLECOPY, mFAQS, mEND]

/-- The blob of end-to-end scenario 1. -/
def blob1 : List Char :=
  toL "---KEYWORDS---\nfoo, bar\n---TITLETAG---\nT\n---METADESC---\nD\n---ARTICLETITLE---\nH\n---ARTICLECOPY---\nBody\n---FAQS---\nQ/A\n---END---"

/-- The blob of end-to-end scenario 2: scenario 1 with the `---FAQS---`
marker (and the FAQ text) removed. -/
def blob2 : List Char :=
  toL "---KEYWORDS---\nfoo, bar\n---TITLETAG---\nT\n---METADESC---\nD\n---ARTICLETITLE---\nH\n---ARTICLECOPY---\nBody\n---END---"

/-- A blob with junk before the first `---KEYWORDS---` marker and a
duplicated `---KEYWORDS---` marker. -/
def rawDup : List Char := toL "xx---KEYWORDS---a---KEYWORDS---b---TITLETAG---"

/-- `matchHere` decides whether `m` is an initial segment of `s`. -/
theorem matchHere_iff : ∀ (m s : List Char), matchHere m s = true ↔ s.take m.length = m
  | [], s => by simp [matchHere]
  | a :: m, [] => by simp [matchHere]
  | a :: m, b :: t => by
    simp only [matchHere, Bool.and_eq_true, beq_iff_eq, List.length_cons, List.take_succ_cons,
      List.cons.injEq, matchHere_iff m t]
    exact ⟨fun h => ⟨h.1.symm, h.2⟩, fun h => ⟨h.1.symm, h.2⟩⟩

/-- `findSub` returns exactly the least position at which `m` matches. -/
theorem findSub_some_iff (m : List Char) :
    ∀ (s : List Char) (i : Nat),
      findSub m s = some i ↔
        ((s.drop i).take m.length = m ∧ ∀ j, j < i → (s.drop j).take m.length ≠ m)
  | [], i => by
    unfold findSub
    by_cases h : matchHere m [] = true
    · rw [if_pos h, matchHere_iff] at *
      constructor
      · intro h0
        have hi : i = 0 := by
          have := Option.some.inj h0
          omega
        subst hi
        exact ⟨by simpa using h, fun j hj => absurd hj (Nat.not_lt_zero j)⟩
      · rintro ⟨h1, h2⟩
        rcases Nat.eq_zero_or_pos i with rfl | hi
        · rfl
        · exact absurd (show (List.drop 0 ([] : List Char)).take m.length = m by simpa using h)
            (h2 0 hi)
    · rw [if_neg h]
      rw [matchHere_iff] at h
      constructor
      · intro h0
        exact Option.noConfusion h0
      · rintro ⟨h1, -⟩
        exact absurd (by simpa using h1) h
  | c :: t, i => by
    unfold findSub
    by_cases h : matchHere m (c :: t) = true
    · rw [if_pos h, matchHere_iff] at *
      constructor
      · intro h0
        have hi : i = 0 := by
          have := Option.some.inj h0
          omega
        subst hi
        exact ⟨by simpa using h, fun j hj => absurd hj (Nat.not_lt_zero j)⟩
      · rintro ⟨h1, h2⟩
        rcases Nat.eq_zero_or_pos i with rfl | hi
        · rfl
        · exact absurd (show (List.drop 0 (c :: t)).take m.length = m by simpa using h) (h2 0 hi)
    · rw [if_neg h]
      constructor
      · intro h0
        obtain ⟨i0, hfind, hadd⟩ := Option.map_eq_some'.mp h0
        obtain ⟨h1, h2⟩ := (findSub_some_iff m t i0).mp hfind
        subst hadd
        constructor
        · simpa [List.drop_succ_cons] using h1
        · intro j hj
          cases j with
          | zero =>
            intro hcon
            rw [matchHere_iff] at h
            exact h (by simpa using hcon)
          | succ j0 =>
            intro hcon
            exact h2 j0 (by omega) (by simpa [List.drop_succ_cons] using hcon)
      · rintro ⟨h1, h2⟩
        cases i with
        | zero =>
          rw [matchHere_iff] at h
          exact absurd (by simpa using h1) h
        | succ i0 =>
          apply Option.map_eq_some'.mpr
          refine ⟨i0, ?_, rfl⟩
          apply (findSub_some_iff m t i0).mpr
          exact ⟨by simpa [List.drop_succ_cons] using h1,
            fun j hj hcon => h2 (j + 1) (by omega) (by simpa [List.drop_succ_cons] using hcon)⟩

/-- `findSub` fails exactly when `m` matches at no position. -/
theorem findSub_none_iff (m : List Char) :
    ∀ s : List Char, findSub m s = none ↔ ∀ j, (s.drop j).take m.length ≠ m
  | [] => by
    unfold findSub
    by_cases h : matchHere m [] = true
    · rw [if_pos h]
      constructor
      · intro h0
        exact Option.noConfusion h0
      · intro hall
        exact absurd (by simpa using (matchHere_iff m []).mp h) (hall 0)
    · rw [if_neg h]
      rw [matchHere_iff] at h
      constructor
      · intro _ j hcon
        exact h (by simpa using hcon)
      · intro _
        rfl
  | c :: t => by
    unfold findSub
    by_cases h : matchHere m (c :: t) = true
    · rw [if_pos h]
      constructor
      · intro h0
        exact Option.noConfusion h0
      · intro hall
        exact absurd (by simpa using (matchHere_iff m (c :: t)).mp h) (hall 0)
    · rw [if_neg h, Option.map_eq_none', findSub_none_iff m t]
      constructor
      · intro hall j
        cases j with
        | zero =>
          intro hcon
          rw [matchHere_iff] at h
          exact h (by simpa using hcon)
        | succ j0 => simpa [List.drop_succ_cons] using hall j0
      · intro hall j
        simpa [List.drop_succ_cons] using hall (j + 1)

/-- `pyIndex s m lo` returns exactly the first occurrence of `m` at or after
`lo` (Python `str.index(m, lo)` with in-range `lo`). -/
theorem pyIndex_some_iff (s m : List Char) (lo i : Nat) :
    pyIndex s m lo = some i ↔
      (lo ≤ s.length ∧ lo ≤ i ∧ occursAt m s i ∧ ∀ j, lo ≤ j → j < i → ¬ occursAt m s j) := by
  unfold pyIndex
  by_cases hlo : lo ≤ s.length
  · rw [if_pos hlo]
    constructor
    · intro h
      obtain ⟨i0, hfind, hadd⟩ := Option.map_eq_some'.mp h
      obtain ⟨hocc0, hmin0⟩ := (findSub_some_iff m (s.drop lo) i0).mp hfind
      subst hadd
      refine ⟨hlo, Nat.le_add_left lo i0, ?_, ?_⟩
      · rw [List.drop_drop, Nat.add_comm lo i0] at hocc0
        exact hocc0
      · intro j hj1 hj2 hcon
        apply hmin0 (j - lo) (by omega)
        rw [List.drop_drop]
        have hje : lo + (j - lo) = j := by omega
        rw [hje]
        exact hcon
    · rintro ⟨-, hle, hocc, hmin⟩
      apply Option.map_eq_some'.mpr
      refine ⟨i - lo, ?_, by omega⟩
      apply (findSub_some_iff m (s.drop lo) (i - lo)).mpr
      constructor
      · rw [List.drop_drop]
        have hie : lo + (i - lo) = i := by omega
        rw [hie]
        exact hocc
      · intro j hj
        rw [List.drop_drop]
        exact hmin (lo + j) (by omega) (by omega)
  · rw [if_neg hlo]
    constructor
    · intro h
      exact Option.noConfusion h
    · rintro ⟨h1, -⟩
      exact absurd h1 hlo

/-- `pyIndex s m lo` fails exactly when `lo` is out of range or `m` has no
occurrence at or after `lo`. -/
theorem pyIndex_none_iff (s m : List Char) (lo : Nat) :
    pyIndex s m lo = none ↔ (s.length < lo ∨ ∀ j, lo ≤ j → ¬ occursAt m s j) := by
  unfold pyIndex
  by_cases hlo : lo ≤ s.length
  · rw [if_pos hlo, Option.map_eq_none', findSub_none_iff]
    constructor
    · intro hall
      right
      intro j hj hcon
      apply hall (j - lo)
      rw [List.drop_drop]
      have hje : lo + (j - lo) = j := by omega
      rw [hje]
      exact hcon
    · intro hor
      rcases hor with h | h
      · omega
      · intro j hcon
        apply h (lo + j) (by omega)
        show (s.drop (lo + j)).take m.length = m
        rw [← List.drop_drop]
        exact hcon
  · rw [if_neg hlo]
    constructor
    · intro _
      exact Or.inl (by omega)
    · intro _
      rfl

/-- An occurrence of a nonempty `m` lies entirely inside `s`. -/
theorem occursAt_bounds (m s : List Char) (i : Nat) (hm : m ≠ []) (h : occursAt m s i) :
    i + m.length ≤ s.length := by
  have hlen : ((s.drop i).take m.length).length = m.length := by rw [h]
  rw [List.length_take, List.length_drop] at hlen
  have hmlen : m.length ≠ 0 := by
    cases m with
    | nil => exact absurd rfl hm
    | cons a t => simp
  have h1 : min m.length (s.length - i) ≤ s.length - i := Nat.min_le_right _ _
  rw [hlen] at h1
  omega

/-- `extract` evaluated when the start-marker search fails. -/
theorem extract_nil_of_start_none (raw start end_ : List Char)
    (h : pyIndex raw start 0 = none) : extract raw start end_ = [] := by
  unfold extract
  rw [h]

/-- `extract` evaluated when the end-marker search fails. -/
theorem extract_nil_of_end_none (raw start end_ : List Char) (i : Nat)
    (h1 : pyIndex raw start 0 = some i)
    (h2 : pyIndex raw end_ (i + start.length) = none) : extract raw start end_ = [] := by
  have h : extract raw start end_ =
      match pyIndex raw end_ (i + start.length) with
      | none => []
      | some e => pyStrip (listSlice raw (i + start.length) e) := by
    unfold extract
    rw [h1]
  rw [h, h2]

/-- `extract` evaluated when both searches succeed. -/
theorem extract_eq_of_finds (raw start end_ : List Char) (i e : Nat)
    (h1 : pyIndex raw start 0 = some i)
    (h2 : pyIndex raw end_ (i + start.length) = some e) :
    extract raw start end_ = pyStrip (listSlice raw (i + start.length) e) := by
  have h : extract raw start end_ =
      match pyIndex raw end_ (i + start.length) with
      | none => []
      | some e2 => pyStrip (listSlice raw (i + start.length) e2) := by
    unfold extract
    rw [h1]
  rw [h, h2]

/-- If a nonempty `start` occurs at `a` and `end_` occurs at `b` past the end
of that occurrence, then `extract` returns the stripped slice between the
FIRST occurrence of `start` and the first occurrence of `end_` after it. -/
theorem extract_spec_of_occurs (raw start end_ : List Char) (hs : start ≠ [])
    (a b : Nat) (ha : occursAt start raw a) (hb : occursAt end_ raw b)
    (hab : a + start.length ≤ b) :
    ∃ i e, firstOccFrom start raw 0 i ∧ firstOccFrom end_ raw (i + start.length) e ∧
      extract raw start end_ = pyStrip (listSlice raw (i + start.length) e) := by
  cases h1 : pyIndex raw start 0 with
  | none =>
    rcases (pyIndex_none_iff raw start 0).mp h1 with h | h
    · exact absurd h (by omega)
    · exact absurd ha (h a (Nat.zero_le a))
  | some i =>
    obtain ⟨-, hi0, hocc, hmin⟩ := (pyIndex_some_iff raw start 0 i).mp h1
    have hia : i ≤ a := by
      by_contra hcon
      exact hmin a (Nat.zero_le a) (by omega) ha
    have hbound : i + start.length ≤ raw.length := occursAt_bounds start raw i hs hocc
    cases h2 : pyIndex raw end_ (i + start.length) with
    | none =>
      rcases (pyIndex_none_iff raw end_ (i + start.length)).mp h2 with h | h
      · omega
      · exact absurd hb (h b (by omega))
    | some e =>
      obtain ⟨-, he1, he2, he3⟩ := (pyIndex_some_iff raw end_ (i + start.length) e).mp h2
      exact ⟨i, e, ⟨Nat.zero_le i, hocc, fun j hj1 hj2 => hmin j hj1 hj2⟩,
        ⟨he1, he2, he3⟩, extract_eq_of_finds raw start end_ i e h1 h2⟩

/-- Destructor for one step of the greedy in-order marker search. -/
theorem markersInOrderAux_cons (raw : List Char) (lo : Nat) (m : List Char)
    (rest : List (List Char)) (h : markersInOrderAux raw lo (m :: rest) = true) :
    ∃ i, pyIndex raw m lo = some i ∧ markersInOrderAux raw (i + m.length) rest = true := by
  unfold markersInOrderAux at h
  cases hp : pyIndex raw m lo with
  | none =>
    rw [hp] at h
    exact absurd h (by simp)
  | some i =>
    rw [hp] at h
    exact ⟨i, rfl, h⟩

/-- Later-binding-wins combination of two lookup results. -/
def overrideO (x y : Option (List Char)) : Option (List Char) :=
  match x with
  | some v => some v
  | none => y

theorem overrideO_none_right (x : Option (List Char)) : overrideO x none = x := by
  cases x <;> rfl

/-- `pyLookup`'s fold, started from an arbitrary accumulator. -/
theorem pyLookup_go (k : String) (d : Dict) :
    ∀ a : Option (List Char),
      List.foldl (fun acc kv => if kv.1 = k then some kv.2 else acc) a d =
        overrideO (pyLookup d k) a := by
  induction d with
  | nil =>
    intro a
    rfl
  | cons kv t ih =>
    intro a
    have hl : List.foldl (fun acc kv => if kv.1 = k then some kv.2 else acc) a (kv :: t) =
        List.foldl (fun acc kv => if kv.1 = k then some kv.2 else acc)
          (if kv.1 = k then some kv.2 else a) t := rfl
    have hr : pyLookup (kv :: t) k =
        overrideO (pyLookup t k) (if kv.1 = k then some kv.2 else none) := by
      show List.foldl (fun acc kv => if kv.1 = k then some kv.2 else acc)
          (if kv.1 = k then some kv.2 else none) t = _
      rw [ih]
    rw [hl, ih, hr]
    by_cases h : kv.1 = k
    · rw [if_pos h, if_pos h]
      cases pyLookup t k <;> rfl
    · rw [if_neg h, if_neg h]
      cases pyLookup t k <;> rfl

/-- `pyLookup` on a cons cell. -/
theorem pyLookup_cons (kv : String × List Char) (d : Dict) (k : String) :
    pyLookup (kv :: d) k = overrideO (pyLookup d k) (if kv.1 = k then some kv.2 else none) := by
  show List.foldl (fun acc kv => if kv.1 = k then some kv.2 else acc)
      (if kv.1 = k then some kv.2 else none) d = _
  rw [pyLookup_go]

/-- `pyLookup` on an append: the later dict wins, as in a `**`-merge. -/
theorem pyLookup_append (d1 d2 : Dict) (k : String) :
    pyLookup (d1 ++ d2) k = overrideO (pyLookup d2 k) (pyLookup d1 k) := by
  show List.foldl (fun acc kv => if kv.1 = k then some kv.2 else acc) none (d1 ++ d2) = _
  rw [List.foldl_append]
  rw [pyLookup_go]
  rfl

/-- A dict all of whose keys lie in `K` has no binding for a key outside `K`. -/
theorem pyLookup_none_of_keys (K : List String) (k : String) (hk : k ∉ K) :
    ∀ d : Dict, (∀ kv ∈ d, kv.1 ∈ K) → pyLookup d k = none := by
  intro d
  induction d with
  | nil =>
    intro _
    rfl
  | cons kv t ih =>
    intro hall
    rw [pyLookup_cons]
    have ht : pyLookup t k = none := ih (fun x hx => hall x (List.mem_cons_of_mem kv hx))
    have hkv : kv.1 ∈ K := hall kv (List.mem_cons_self kv t)
    have hne : ¬ kv.1 = k := fun h => hk (h ▸ hkv)
    rw [ht, if_neg hne]
    rfl

/-- Every key of the `sections` dict is one of the six section keys. -/
theorem sections_keys_mem (raw : List Char) : ∀ kv ∈ sections raw, kv.1 ∈ sectionKeys := by
  intro kv hkv
  simp only [sections, List.mem_cons, List.not_mem_nil, or_false] at hkv
  rcases hkv with rfl | rfl | rfl | rfl | rfl | rfl <;> simp [sectionKeys]

/-- `sections` has no binding for a key outside the six section keys. -/
theorem sections_lookup_none (raw : List Char) (k : String) (hk : k ∉ sectionKeys) :
    pyLookup (sections raw) k = none :=
  pyLookup_none_of_keys sectionKeys k hk (sections raw) (sections_keys_mem raw)

/-- Membership in the image of a single-character replacement. -/
theorem replaceChar_mem (a b : Char) (s : List Char) (x : Char)
    (hx : x ∈ replaceChar a b s) : x = b ∨ (x ∈ s ∧ x ≠ a) := by
  unfold replaceChar at hx
  rcases List.mem_map.mp hx with ⟨c, hc, hcx⟩
  by_cases h : c = a
  · rw [if_pos h] at hcx
    exact Or.inl hcx.symm
  · rw [if_neg h] at hcx
    exact Or.inr ⟨hcx ▸ hc, hcx ▸ h⟩

/-- A framed fragment starts with an opening brace where the sentinel has a
bracket, so they are never equal. -/
theorem sseFrame_ne_done (f : List Char) : sseFrame f ≠ doneEvent := by
  intro h
  have h7 : (sseFrame f).take 7 = doneEvent.take 7 := by rw [h]
  have hL : (sseFrame f).take 7 = toL "data: \x7b" := rfl
  have hR : doneEvent.take 7 = toL "data: [" := rfl
  rw [hL, hR] at h7
  exact absurd h7 (by decide)

/-- C1: for every blob containing all seven delimiter markers in order, the
extractor returns, for each of the six sections, exactly the substring
strictly between the first occurrence of its start marker and the first
occurrence of its end marker after it, trimmed of whitespace; and on the
blob of end-to-end scenario 1 it returns the six expected section values. -/
theorem c1_extraction_between_markers :
    (∀ raw : List Char, markersInOrder raw = true →
      ∀ name startM endM, (name, startM, endM) ∈ sectionTriples →
        ∃ i e, firstOccFrom startM raw 0 i ∧ firstOccFrom endM raw (i + startM.length) e ∧
          pyLookup (sections raw) name = some (pyStrip (listSlice raw (i + startM.length) e))) ∧
    sections blob1 =
      [("keywords", toL "foo, bar"), ("title_tag", toL "T"), ("meta_desc", toL "D"),
       ("article_title", toL "H"), ("article_copy", toL "Body"), ("faqs", toL "Q/A")] := by
  constructor
  · intro raw h
    unfold markersInOrder at h
    obtain ⟨i1, h1, h⟩ := markersInOrderAux_cons raw _ _ _ h
    obtain ⟨i2, h2, h⟩ := markersInOrderAux_cons raw _ _ _ h
    obtain ⟨i3, h3, h⟩ := markersInOrderAux_cons raw _ _ _ h
    obtain ⟨i4, h4, h⟩ := markersInOrderAux_cons raw _ _ _ h
    obtain ⟨i5, h5, h⟩ := markersInOrderAux_cons raw _ _ _ h
    obtain ⟨i6, h6, h⟩ := markersInOrderAux_cons raw _ _ _ h
    obtain ⟨i7, h7, -⟩ := markersInOrderAux_cons raw _ _ _ h
    have p1 := (pyIndex_some_iff raw mKEYWORDS 0 i1).mp h1
    have p2 := (pyIndex_some_iff raw mTITLETAG (i1 + mKEYWORDS.length) i2).mp h2
    have p3 := (pyIndex_some_iff raw mMETADESC (i2 + mTITLETAG.length) i3).mp h3
    have p4 := (pyIndex_some_iff raw mARTICLETITLE (i3 + mMETADESC.length) i4).mp h4
    have p5 := (pyIndex_some_iff raw mARTICLECOPY (i4 + mARTICLETITLE.length) i5).mp h5
    have p6 := (pyIndex_some_iff raw mFAQS (i5 + mARTICLECOPY.length) i6).mp h6
    have p7 := (pyIndex_some_iff raw mEND (i6 + mFAQS.length) i7).mp h7
    intro name startM endM hmem
    simp only [sectionTriples, List.mem_cons, List.not_mem_nil, or_false,
      Prod.mk.injEq] at hmem
    rcases hmem with hm | hm | hm | hm | hm | hm
    all_goals obtain ⟨rfl, rfl, rfl⟩ := hm
    · obtain ⟨i, e, f1, f2, hv⟩ := extract_spec_of_occurs raw mKEYWORDS mTITLETAG (by decide)
        i1 i2 p1.2.2.1 p2.2.2.1 p2.2.1
      refine ⟨i, e, f1, f2, ?_⟩
      have hs : pyLookup (sections raw) "keywords" =
          some (extract raw mKEYWORDS mTITLETAG) := rfl
      rw [hs, hv]
    · obtain ⟨i, e, f1, f2, hv⟩ := extract_spec_of_occurs raw mTITLETAG mMETADESC (by decide)
        i2 i3 p2.2.2.1 p3.2.2.1 p3.2.1
      refine ⟨i, e, f1, f2, ?_⟩
      have hs : pyLookup (sections raw) "title_tag" =
          some (extract raw mTITLETAG mMETADESC) := rfl
      rw [hs, hv]
    · obtain ⟨i, e, f1, f2, hv⟩ := extract_spec_of_occurs raw mMETADESC mARTICLETITLE
        (by decide) i3 i4 p3.2.2.1 p4.2.2.1 p4.2.1
      refine ⟨i, e, f1, f2, ?_⟩
      have hs : pyLookup (sections raw) "meta_desc" =
          some (extract raw mMETADESC mARTICLETITLE) := rfl
      rw [hs, hv]
    · obtain ⟨i, e, f1, f2, hv⟩ := extract_spec_of_occurs raw mARTICLETITLE mARTICLECOPY
        (by decide) i4 i5 p4.2.2.1 p5.2.2.1 p5.2.1
      refine ⟨i, e, f1, f2, ?_⟩
      have hs : pyLookup (sections raw) "article_title" =
          some (extract raw mARTICLETITLE mARTICLECOPY) := rfl
      rw [hs, hv]
    · obtain ⟨i, e, f1, f2, hv⟩ := extract_spec_of_occurs raw mARTICLECOPY mFAQS (by decide)
        i5 i6 p5.2.2.1 p6.2.2.1 p6.2.1
      refine ⟨i, e, f1, f2, ?_⟩
      have hs : pyLookup (sections raw) "article_copy" =
          some (extract raw mARTICLECOPY mFAQS) := rfl
      rw [hs, hv]
    · obtain ⟨i, e, f1, f2, hv⟩ := extract_spec_of_occurs raw mFAQS mEND (by decide)
        i6 i7 p6.2.2.1 p7.2.2.1 p7.2.1
      refine ⟨i, e, f1, f2, ?_⟩
      have hs : pyLookup (sections raw) "faqs" = some (extract raw mFAQS mEND) := rfl
      rw [hs, hv]
  · decide

/-- Witness for C1 at the scenario-1 blob and the keywords section. -/
theorem c1_witness :
    markersInOrder blob1 = true ∧
    ("keywords", mKEYWORDS, mTITLETAG) ∈ sectionTriples ∧
    ∃ i e, firstOccFrom mKEYWORDS blob1 0 i ∧
      firstOccFrom mTITLETAG blob1 (i + mKEYWORDS.length) e ∧
      pyLookup (sections blob1) "keywords" =
        some (pyStrip (listSlice blob1 (i + mKEYWORDS.length) e)) :=
  ⟨by decide, by decide,
    c1_extraction_between_markers.1 blob1 (by decide) "keywords" mKEYWORDS mTITLETAG
      (by decide)⟩

/-- C2: a section whose start marker never occurs, or whose end marker never
occurs at or after the position immediately following the first occurrence
of the start marker, is assigned the empty string; the extractor is a total
function, so no input can make it raise. -/
theorem c2_missing_marker_empty (raw start end_ : List Char) :
    ((∀ j, ¬ occursAt start raw j) → extract raw start end_ = []) ∧
    (∀ i, firstOccFrom start raw 0 i →
      (∀ j, i + start.length ≤ j → ¬ occursAt end_ raw j) → extract raw start end_ = []) := by
  constructor
  · intro h
    apply extract_nil_of_start_none
    rw [pyIndex_none_iff]
    exact Or.inr (fun j _ => h j)
  · rintro i ⟨-, hocc, hmin⟩ hend
    have h1 : pyIndex raw start 0 = some i := by
      rw [pyIndex_some_iff]
      exact ⟨Nat.zero_le _, Nat.zero_le _, hocc, hmin⟩
    apply extract_nil_of_end_none raw start end_ i h1
    rw [pyIndex_none_iff]
    exact Or.inr hend

/-- Witness for C2: a blob with no markers at all yields the empty string. -/
theorem c2_witness : extract (toL "abc") mKEYWORDS mEND = [] := by
  apply (c2_missing_marker_empty (toL "abc") mKEYWORDS mEND).1
  intro j
  have hn : pyIndex (toL "abc") mKEYWORDS 0 = none := by decide
  rcases (pyIndex_none_iff (toL "abc") mKEYWORDS 0).mp hn with h | h
  · exact absurd h (by omega)
  · exact h j (Nat.zero_le j)

/-- C4: each (start, end) pair is processed independently on the whole blob
(the `sections` dict applies `extract` to `raw` afresh for every pair), only
the first occurrence of the start marker is used, and the end marker is
searched from the position immediately after that first occurrence. -/
theorem c4_independent_first_occurrence :
    (∀ raw : List Char,
      sections raw = sectionTriples.map (fun t => (t.1, extract raw t.2.1 t.2.2))) ∧
    (∀ raw start end_ : List Char, ∀ i : Nat, start ≠ [] →
      occursAt start raw i → (∀ j, j < i → ¬ occursAt start raw j) →
      (extract raw start end_ = [] ∧ ∀ e, i + start.length ≤ e → ¬ occursAt end_ raw e) ∨
      (∃ e, firstOccFrom end_ raw (i + start.length) e ∧
        extract raw start end_ = pyStrip (listSlice raw (i + start.length) e))) := by
  constructor
  · intro raw
    rfl
  · intro raw start end_ i hne hocc hmin
    have h1 : pyIndex raw start 0 = some i := by
      rw [pyIndex_some_iff]
      exact ⟨Nat.zero_le _, Nat.zero_le _, hocc, fun j _ hj => hmin j hj⟩
    have hbound : i + start.length ≤ raw.length := occursAt_bounds start raw i hne hocc
    cases h2 : pyIndex raw end_ (i + start.length) with
    | none =>
      left
      refine ⟨extract_nil_of_end_none raw start end_ i h1 h2, ?_⟩
      rcases (pyIndex_none_iff raw end_ (i + start.length)).mp h2 with h | h
      · exact absurd hbound (by omega)
      · exact h
    | some e =>
      right
      obtain ⟨-, he1, he2, he3⟩ := (pyIndex_some_iff raw end_ (i + start.length) e).mp h2
      exact ⟨e, ⟨he1, he2, he3⟩, extract_eq_of_finds raw start end_ i e h1 h2⟩

/-- Witness for C4 at a blob with junk before a duplicated start marker:
the first occurrence (position 2) governs the extraction. -/
theorem c4_witness :
    sections rawDup = sectionTriples.map (fun t => (t.1, extract rawDup t.2.1 t.2.2)) ∧
    ((extract rawDup mKEYWORDS mTITLETAG = [] ∧
        ∀ e, 2 + mKEYWORDS.length ≤ e → ¬ occursAt mTITLETAG rawDup e) ∨
      (∃ e, firstOccFrom mTITLETAG rawDup (2 + mKEYWORDS.length) e ∧
        extract rawDup mKEYWORDS mTITLETAG =
          pyStrip (listSlice rawDup (2 + mKEYWORDS.length) e))) :=
  ⟨c4_independent_first_occurrence.1 rawDup,
    c4_independent_first_occurrence.2 rawDup mKEYWORDS mTITLETAG 2 (by decide) (by decide)
      (by decide)⟩

/-- C3 (amended): on a blob that is well-formed except that `---FAQS---` is
absent, the faqs section is empty and the four sections keywords, title_tag,
meta_desc and article_title are still extracted correctly; article_copy,
whose designated end marker is the absent `---FAQS---`, also degrades to the
empty string. -/
theorem c3_missing_faqs (raw : List Char)
    (hchain : markersInOrderAux raw 0
      [mKEYWORDS, mTITLETAG, mMETADESC, mARTICLETITLE, mARTICLECOPY, mEND] = true)
    (hfaqs : ∀ j, ¬ occursAt mFAQS raw j) :
    pyLookup (sections raw) "faqs" = some [] ∧
    pyLookup (sections raw) "article_copy" = some [] ∧
    (∀ name startM endM, (name, startM, endM) ∈ sectionTriples.take 4 →
      ∃ i e, firstOccFrom startM raw 0 i ∧ firstOccFrom endM raw (i + startM.length) e ∧
        pyLookup (sections raw) name =
          some (pyStrip (listSlice raw (i + startM.length) e))) := by
  obtain ⟨i1, h1, h⟩ := markersInOrderAux_cons raw _ _ _ hchain
  obtain ⟨i2, h2, h⟩ := markersInOrderAux_cons raw _ _ _ h
  obtain ⟨i3, h3, h⟩ := markersInOrderAux_cons raw _ _ _ h
  obtain ⟨i4, h4, h⟩ := markersInOrderAux_cons raw _ _ _ h
  obtain ⟨i5, h5, h⟩ := markersInOrderAux_cons raw _ _ _ h
  obtain ⟨i6, h6, -⟩ := markersInOrderAux_cons raw _ _ _ h
  have p1 := (pyIndex_some_iff raw mKEYWORDS 0 i1).mp h1
  have p2 := (pyIndex_some_iff raw mTITLETAG (i1 + mKEYWORDS.length) i2).mp h2
  have p3 := (pyIndex_some_iff raw mMETADESC (i2 + mTITLETAG.length) i3).mp h3
  have p4 := (pyIndex_some_iff raw mARTICLETITLE (i3 + mMETADESC.length) i4).mp h4
  have p5 := (pyIndex_some_iff raw mARTICLECOPY (i4 + mARTICLETITLE.length) i5).mp h5
  have hfaqsI : ∀ lo : Nat, pyIndex raw mFAQS lo = none := by
    intro lo
    rw [pyIndex_none_iff]
    exact Or.inr (fun j _ => hfaqs j)
  refine ⟨?_, ?_, ?_⟩
  · have hs : pyLookup (sections raw) "faqs" = some (extract raw mFAQS mEND) := rfl
    rw [hs, extract_nil_of_start_none raw mFAQS mEND (hfaqsI 0)]
  · have hs : pyLookup (sections raw) "article_copy" =
        some (extract raw mARTICLECOPY mFAQS) := rfl
    cases hstart : pyIndex raw mARTICLECOPY 0 with
    | none => rw [hs, extract_nil_of_start_none raw mARTICLECOPY mFAQS hstart]
    | some ia =>
      rw [hs, extract_nil_of_end_none raw mARTICLECOPY mFAQS ia hstart (hfaqsI _)]
  · have htake : sectionTriples.take 4 =
        [("keywords", mKEYWORDS, mTITLETAG), ("title_tag", mTITLETAG, mMETADESC),
         ("meta_desc", mMETADESC, mARTICLETITLE),
         ("article_title", mARTICLETITLE, mARTICLECOPY)] := rfl
    intro name startM endM hmem
    rw [htake] at hmem
    simp only [List.mem_cons, List.not_mem_nil, or_false, Prod.mk.injEq] at hmem
    rcases hmem with hm | hm | hm | hm
    all_goals obtain ⟨rfl, rfl, rfl⟩ := hm
    · obtain ⟨i, e, f1, f2, hv⟩ := extract_spec_of_occurs raw mKEYWORDS mTITLETAG (by decide)
        i1 i2 p1.2.2.1 p2.2.2.1 p2.2.1
      refine ⟨i, e, f1, f2, ?_⟩
      have hs : pyLookup (sections raw) "keywords" =
          some (extract raw mKEYWORDS mTITLETAG) := rfl
      rw [hs, hv]
    · obtain ⟨i, e, f1, f2, hv⟩ := extract_spec_of_occurs raw mTITLETAG mMETADESC (by decide)
        i2 i3 p2.2.2.1 p3.2.2.1 p3.2.1
      refine ⟨i, e, f1, f2, ?_⟩
      have hs : pyLookup (sections raw) "title_tag" =
          some (extract raw mTITLETAG mMETADESC) := rfl
      rw [hs, hv]
    · obtain ⟨i, e, f1, f2, hv⟩ := extract_spec_of_occurs raw mMETADESC mARTICLETITLE
        (by decide) i3 i4 p3.2.2.1 p4.2.2.1 p4.2.1
      refine ⟨i, e, f1, f2, ?_⟩
      have hs : pyLookup (sections raw) "meta_desc" =
          some (extract raw mMETADESC mARTICLETITLE) := rfl
      rw [hs, hv]
    · obtain ⟨i, e, f1, f2, hv⟩ := extract_spec_of_occurs raw mARTICLETITLE mARTICLECOPY
        (by decide) i4 i5 p4.2.2.1 p5.2.2.1 p5.2.1
      refine ⟨i, e, f1, f2, ?_⟩
      have hs : pyLookup (sections raw) "article_title" =
          some (extract raw mARTICLETITLE mARTICLECOPY) := rfl
      rw [hs, hv]

/-- C3 counterexample: on the scenario-2 blob the article_copy section is
the empty string, and it cannot equal the trimmed text between its
designated marker pair as the claim states, because the end marker
`---FAQS---` of that pair has no occurrence at all in the blob. -/
theorem c3_counterexample :
    pyLookup (sections blob2) "article_copy" = some [] ∧
    ¬ ∃ i e, firstOccFrom mARTICLECOPY blob2 0 i ∧
        firstOccFrom mFAQS blob2 (i + mARTICLECOPY.length) e ∧
        pyLookup (sections blob2) "article_copy" =
          some (pyStrip (listSlice blob2 (i + mARTICLECOPY.length) e)) := by
  constructor
  · decide
  · rintro ⟨i, e, -, ⟨-, hocc, -⟩, -⟩
    have hn : pyIndex blob2 mFAQS 0 = none := by decide
    rcases (pyIndex_none_iff blob2 mFAQS 0).mp hn with h | h
    · exact absurd h (by omega)
    · exact h e (Nat.zero_le e) hocc

/-- Witness for C3 at the scenario-2 blob. -/
theorem c3_witness :
    pyLookup (sections blob2) "faqs" = some [] ∧
    pyLookup (sections blob2) "article_copy" = some [] ∧
    (∀ name startM endM, (name, startM, endM) ∈ sectionTriples.take 4 →
      ∃ i e, firstOccFrom startM blob2 0 i ∧ firstOccFrom endM blob2 (i + startM.length) e ∧
        pyLookup (sections blob2) name =
          some (pyStrip (listSlice blob2 (i + startM.length) e))) := by
  apply c3_missing_faqs
  · decide
  · intro j
    have hn : pyIndex blob2 mFAQS 0 = none := by decide
    rcases (pyIndex_none_iff blob2 mFAQS 0).mp hn with h | h
    · exact absurd h (by omega)
    · exact h j (Nat.zero_le j)

/-- C5: for every input string the sections mapping carries exactly the six
section keys, every key is bound (to the empty string on a failed
extraction), and rendering the markdown document from it never fails on a
missing key; the JSON record is a merge that cannot fail by construction. -/
theorem c5_sectionset_always_complete (raw : List Char) (ctx : Dict) (gen : List Char) :
    (sections raw).map Prod.fst = sectionKeys ∧
    (∀ k, k ∈ sectionKeys → ∃ v, pyLookup (sections raw) k = some v) ∧
    (buildMd ctx (sections raw) gen).isSome = true := by
  refine ⟨rfl, ?_, rfl⟩
  intro k hk
  simp only [sectionKeys, List.mem_cons, List.not_mem_nil, or_false] at hk
  rcases hk with rfl | rfl | rfl | rfl | rfl | rfl
  all_goals exact ⟨_, rfl⟩

/-- Witness for C5 at the empty input string and empty context. -/
theorem c5_witness :
    ("keywords" ∈ sectionKeys) ∧ (∃ v, pyLookup (sections []) "keywords" = some v) :=
  ⟨by decide, (c5_sectionset_always_complete [] [] []).2.1 "keywords" (by decide)⟩

/-- C6: a primary keyword containing a space or a slash yields a filename
base with no space and no slash, truncated to at most 30 characters before
the timestamp suffix; and "best running shoes" produces
`best_running_shoes_<timestamp>.md` with a `.json` of the same base. -/
theorem c6_filename_sanitization (ctx : Dict) (kw ts : List Char)
    (hkw : pyLookup ctx "primary_keyword" = some kw)
    (hsp : (' ' ∈ kw) ∨ ('/' ∈ kw)) :
    ¬ (' ' ∈ safe_kw ctx) ∧ ¬ ('/' ∈ safe_kw ctx) ∧ (safe_kw ctx).length ≤ 30 ∧
    (kw = toL "best running shoes" →
      mdFileName ctx ts = toL "best_running_shoes_" ++ ts ++ toL ".md" ∧
      jsonFileName ctx ts = toL "best_running_shoes_" ++ ts ++ toL ".json") := by
  have hsafe : safe_kw ctx = (replaceChar '/' '-' (replaceChar ' ' '_' kw)).take 30 := by
    unfold safe_kw pyGet
    rw [hkw]
    rfl
  refine ⟨?_, ?_, ?_, ?_⟩
  · intro hmem
    rw [hsafe] at hmem
    have hmem2 := List.take_subset 30 _ hmem
    rcases replaceChar_mem '/' '-' _ ' ' hmem2 with h | ⟨h, -⟩
    · exact absurd h (by decide)
    · rcases replaceChar_mem ' ' '_' kw ' ' h with h2 | ⟨-, hne2⟩
      · exact absurd h2 (by decide)
      · exact hne2 rfl
  · intro hmem
    rw [hsafe] at hmem
    have hmem2 := List.take_subset 30 _ hmem
    rcases replaceChar_mem '/' '-' _ '/' hmem2 with h | ⟨-, hne⟩
    · exact absurd h (by decide)
    · exact hne rfl
  · rw [hsafe, List.length_take]
    exact Nat.min_le_left _ _
  · intro hbest
    subst hbest
    have hs2 : safe_kw ctx = toL "best_running_shoes" := by
      rw [hsafe]
      decide
    constructor
    · unfold mdFileName base
      rw [hs2]
      rfl
    · unfold jsonFileName base
      rw [hs2]
      rfl

/-- Witness for C6 at the scenario-3 context. -/
theorem c6_witness :
    ¬ (' ' ∈ safe_kw [("primary_keyword", toL "best running shoes")]) ∧
    ¬ ('/' ∈ safe_kw [("primary_keyword", toL "best running shoes")]) ∧
    (safe_kw [("primary_keyword", toL "best running shoes")]).length ≤ 30 ∧
    (toL "best running shoes" = toL "best running shoes" →
      mdFileName [("primary_keyword", toL "best running shoes")] (toL "20250101_120000") =
        toL "best_running_shoes_" ++ toL "20250101_120000" ++ toL ".md" ∧
      jsonFileName [("primary_keyword", toL "best running shoes")] (toL "20250101_120000") =
        toL "best_running_shoes_" ++ toL "20250101_120000" ++ toL ".json") :=
  c6_filename_sanitization [("primary_keyword", toL "best running shoes")]
    (toL "best running shoes") (toL "20250101_120000") (by decide) (by decide)

/-- C7 counterexample: with primary keyword "a?b" the filename base keeps
the character `?`, which is neither alphanumeric nor one of the documented
replacement images, so the claimed full sanitization does not hold. -/
theorem c7_counterexample :
    ¬ (∀ c ∈ safe_kw [("primary_keyword", toL "a?b")],
        (c.isAlphanum ∨ c = '_' ∨ c = '-')) := by
  decide

/-- C7 (amended): the filename base is the primary keyword with only spaces
and slashes replaced (space to underscore, slash to hyphen) and truncated to
at most 30 characters, concatenated with the timestamp; every character of
the base is a replacement image or a character of the keyword other than
space and slash — other non-alphanumeric characters survive unchanged. -/
theorem c7_sanitization_scope (ctx : Dict) (kw ts : List Char)
    (hkw : pyLookup ctx "primary_keyword" = some kw) :
    (∀ c ∈ safe_kw ctx, c = '_' ∨ c = '-' ∨ (c ∈ kw ∧ c ≠ ' ' ∧ c ≠ '/')) ∧
    (safe_kw ctx).length ≤ 30 ∧
    base ctx ts = safe_kw ctx ++ toL "_" ++ ts := by
  have hsafe : safe_kw ctx = (replaceChar '/' '-' (replaceChar ' ' '_' kw)).take 30 := by
    unfold safe_kw pyGet
    rw [hkw]
    rfl
  refine ⟨?_, ?_, rfl⟩
  · intro c hc
    rw [hsafe] at hc
    have hc2 := List.take_subset 30 _ hc
    rcases replaceChar_mem '/' '-' _ c hc2 with h | ⟨h, hne⟩
    · exact Or.inr (Or.inl h)
    · rcases replaceChar_mem ' ' '_' kw c h with h2 | ⟨h3, hne2⟩
      · exact Or.inl h2
      · exact Or.inr (Or.inr ⟨h3, hne2, hne⟩)
  · rw [hsafe, List.length_take]
    exact Nat.min_le_left _ _

/-- Witness for C7 at the keyword "a?b", whose `?` survives. -/
theorem c7_witness :
    (∀ c ∈ safe_kw [("primary_keyword", toL "a?b")],
      c = '_' ∨ c = '-' ∨ (c ∈ toL "a?b" ∧ c ≠ ' ' ∧ c ≠ '/')) ∧
    (safe_kw [("primary_keyword", toL "a?b")]).length ≤ 30 ∧
    base [("primary_keyword", toL "a?b")] (toL "20250101_120000") =
      safe_kw [("primary_keyword", toL "a?b")] ++ toL "_" ++ toL "20250101_120000" :=
  c7_sanitization_scope [("primary_keyword", toL "a?b")] (toL "a?b")
    (toL "20250101_120000") (by decide)

/-- C8: provided the context uses only the documented keys, the JSON export
record is a single flat mapping in which the generated_at field holds the
ISO timestamp, every context field keeps its value, and every section field
keeps its value — no field of either input is lost or nested. -/
theorem c8_export_record_union (ctx : Dict) (raw iso : List Char)
    (hdoc : ∀ kv ∈ ctx, kv.1 ∈ documentedContextKeys) :
    pyLookup (json_data ctx (sections raw) iso) "generated_at" = some iso ∧
    (∀ k, k ∈ documentedContextKeys →
      pyLookup (json_data ctx (sections raw) iso) k = pyLookup ctx k) ∧
    (∀ k, k ∈ sectionKeys →
      pyLookup (json_data ctx (sections raw) iso) k = pyLookup (sections raw) k) := by
  have hgen_ctx : pyLookup ctx "generated_at" = none :=
    pyLookup_none_of_keys documentedContextKeys "generated_at" (by decide) ctx hdoc
  refine ⟨?_, ?_, ?_⟩
  · show pyLookup (("generated_at", iso) :: (ctx ++ sections raw)) "generated_at" = some iso
    rw [pyLookup_cons, pyLookup_append, hgen_ctx]
    have hsec : pyLookup (sections raw) "generated_at" = none :=
      sections_lookup_none raw "generated_at" (by decide)
    rw [hsec]
    rfl
  · intro k hk
    have hdisj : ∀ x, x ∈ documentedContextKeys → x ∉ sectionKeys := by decide
    have hsec : pyLookup (sections raw) k = none := sections_lookup_none raw k (hdisj k hk)
    have hne : ¬ ("generated_at" = k) := by
      intro h
      have hmem : "generated_at" ∈ documentedContextKeys := h ▸ hk
      exact absurd hmem (by decide)
    show pyLookup (("generated_at", iso) :: (ctx ++ sections raw)) k = pyLookup ctx k
    rw [pyLookup_cons, pyLookup_append, hsec, if_neg hne, overrideO_none_right]
    cases pyLookup ctx k <;> rfl
  · intro k hk
    have hsome : ∃ v, pyLookup (sections raw) k = some v := by
      simp only [sectionKeys, List.mem_cons, List.not_mem_nil, or_false] at hk
      rcases hk with rfl | rfl | rfl | rfl | rfl | rfl
      all_goals exact ⟨_, rfl⟩
    obtain ⟨v, hv⟩ := hsome
    show pyLookup (("generated_at", iso) :: (ctx ++ sections raw)) k = pyLookup (sections raw) k
    rw [pyLookup_cons, pyLookup_append, hv]
    rfl

/-- Witness for C8 at a one-key context and the empty blob. -/
theorem c8_witness :
    pyLookup (json_data [("primary_keyword", toL "k")] (sections []) (toL "t"))
      "generated_at" = some (toL "t") ∧
    (∀ k, k ∈ documentedContextKeys →
      pyLookup (json_data [("primary_keyword", toL "k")] (sections []) (toL "t")) k =
        pyLookup [("primary_keyword", toL "k")] k) ∧
    (∀ k, k ∈ sectionKeys →
      pyLookup (json_data [("primary_keyword", toL "k")] (sections []) (toL "t")) k =
        pyLookup (sections []) k) :=
  c8_export_record_union [("primary_keyword", toL "k")] [] (toL "t") (by decide)

/-- C9: the streaming relay emits exactly one framed fragment per upstream
fragment, in the exact order received, then exactly one terminal sentinel
and nothing after it; a three-fragment upstream response yields three framed
fragments and the sentinel. -/
theorem c9_streaming_relay :
    (∀ frags : List (List Char), generateStream frags = frags.map sseFrame ++ [doneEvent]) ∧
    (∀ frags : List (List Char), (generateStream frags).length = frags.length + 1) ∧
    (∀ frags : List (List Char), (generateStream frags).count doneEvent = 1) ∧
    generateStream [toL "a", toL "b", toL "c"] =
      [toL "data: \x7b\"text\": \"a\"\x7d\n\n", toL "data: \x7b\"text\": \"b\"\x7d\n\n",
       toL "data: \x7b\"text\": \"c\"\x7d\n\n", toL "data: [DONE]\n\n"] := by
  have hmain : ∀ frags : List (List Char),
      generateStream frags = frags.map sseFrame ++ [doneEvent] := by
    intro frags
    induction frags with
    | nil => rfl
    | cons f rest ih =>
      show sseFrame f :: generateStream rest = _
      rw [ih]
      rfl
  refine ⟨hmain, ?_, ?_, by decide⟩
  · intro frags
    rw [hmain frags]
    simp
  · intro frags
    rw [hmain frags, List.count_append]
    have h0 : (frags.map sseFrame).count doneEvent = 0 := by
      rw [List.count_eq_zero]
      intro hmem
      rcases List.mem_map.mp hmem with ⟨f, -, hf⟩
      exact sseFrame_ne_done f hf
    rw [h0]
    rfl

/-- C10: a context without primary_keyword (and without keywords_output)
still saves: the filename base falls back to "article" plus the timestamp,
the markdown header renders the primary keyword as the empty string, and
the keyword-research-notes section renders as "N/A". -/
theorem c10_missing_optional_keys (ctx : Dict) (raw ts gen : List Char)
    (hpk : pyLookup ctx "primary_keyword" = none)
    (hko : pyLookup ctx "keywords_output" = none) :
    safe_kw ctx = toL "article" ∧
    base ctx ts = toL "article_" ++ ts ∧
    buildMd ctx (sections raw) gen =
      some (mdText [] gen (extract raw mTITLETAG mMETADESC)
        (extract raw mMETADESC mARTICLETITLE) (extract raw mKEYWORDS mTITLETAG)
        (extract raw mARTICLECOPY mFAQS) (extract raw mFAQS mEND) (toL "N/A")) := by
  have hsafe : safe_kw ctx = toL "article" := by
    unfold safe_kw pyGet
    rw [hpk]
    decide
  refine ⟨hsafe, ?_, ?_⟩
  · unfold base
    rw [hsafe]
    rfl
  · have hbm : buildMd ctx (sections raw) gen =
        some (mdText (pyGet ctx "primary_keyword" []) gen (extract raw mTITLETAG mMETADESC)
          (extract raw mMETADESC mARTICLETITLE) (extract raw mKEYWORDS mTITLETAG)
          (extract raw mARTICLECOPY mFAQS) (extract raw mFAQS mEND)
          (pyGet ctx "keywords_output" (toL "N/A"))) := rfl
    rw [hbm]
    unfold pyGet
    rw [hpk, hko]
    rfl

/-- Witness for C10 at the empty context and empty blob. -/
theorem c10_witness :
    safe_kw ([] : Dict) = toL "article" ∧
    base ([] : Dict) (toL "20250101_120000") = toL "article_" ++ toL "20250101_120000" ∧
    buildMd ([] : Dict) (sections []) (toL "g") =
      some (mdText [] (toL "g") (extract [] mTITLETAG mMETADESC)
        (extract [] mMETADESC mARTICLETITLE) (extract [] mKEYWORDS mTITLETAG)
        (extract [] mARTICLECOPY mFAQS) (extract [] mFAQS mEND) (toL "N/A")) :=
  c10_missing_optional_keys [] [] (toL "20250101_120000") (toL "g") rfl rfl

end SEOTool
